import Mathlib

/-!
Verification of the quantization / evaluation harness logic of the
openvino_notebooks repository.  The definitions below are shallow embeddings of
the Python code found in the notebook sources (src/unnamed/part_000,
src/unnamed/part_001, src/unnamed/part_002); machine floats are modelled by
exact reals / rationals, numpy integer counters by ℤ, and fallible code by
Option / Except, where a `none` / `Except.error` result models a raised Python
exception (or a NaN propagated by numpy zero division).
-/

/-! ### The sigmoid and the numpy rounding used by BinaryF1 (part_001) -/

/-- Embedding of the notebook function
`def sigmoid(x): return np.exp(-np.logaddexp(0, -x))`,
where `np.logaddexp(a, b) = log (exp a + exp b)`. -/
noncomputable def sigmoid (x : ℝ) : ℝ :=
  Real.exp (-(Real.log (Real.exp 0 + Real.exp (-x))))

open Classical in
/-- Embedding of `numpy.round` on a scalar: round half to even
(the IEEE default used by `np.ndarray.round`). -/
noncomputable def roundHalfEven (x : ℝ) : ℤ :=
  if Int.fract x < 1 / 2 then ⌊x⌋
  else if Int.fract x = 1 / 2 then (if Even ⌊x⌋ then ⌊x⌋ else ⌊x⌋ + 1)
  else ⌊x⌋ + 1

/-- Embedding of `.astype(np.byte)`: wrap-around conversion to a signed
8-bit integer. -/
def toByte (n : ℤ) : ℤ := (n + 128) % 256 - 128

/-- One pixel of `sigmoid(output[0]).round().astype(np.byte)` from
`BinaryF1.update` (part_001, lines 606-623). -/
noncomputable def binarize (x : ℝ) : ℤ := toByte (roundHalfEven (sigmoid x))

/-! ### The BinaryF1 metric accumulator (part_001, lines 568-640)

The mutable counters `y_true`, `y_pred`, `correct_true` of the Python class
become a record; images are flattened to lists of pixels (`output` holds the
raw model outputs, `target` the ground-truth mask).  The numpy integer sums
live in ℤ, and `correct_true`, which the Python code accumulates as a
`np.float32`, lives in ℚ (all the accumulated values are small integers, for
which the float32 cast is exact). -/

/-- The counter state of a `BinaryF1` instance. -/
structure F1State where
  y_true : ℤ
  y_pred : ℤ
  correct_true : ℚ
deriving DecidableEq, Repr

/-- The state set up by `BinaryF1.__init__` (all counters zero). -/
def F1State.init : F1State := ⟨0, 0, 0⟩

/-- `BinaryF1.reset` (part_001, lines 625-631): zeroes all counters. -/
def F1State.reset (_ : F1State) : F1State := F1State.init

/-- One summand of
`np.sum((label == prediction).astype(np.byte) * (label == 1).astype(np.byte))`
in `BinaryF1.update`. -/
def correctTrueTerm (l p : ℤ) : ℤ :=
  (if l = p then 1 else 0) * (if l = 1 then 1 else 0)

/-- `BinaryF1.update(output, target)` (part_001, lines 606-623):
`label = target[0].astype(np.byte)`,
`prediction = sigmoid(output[0]).round().astype(np.byte)`, then
`y_true += sum(label)`, `y_pred += sum(prediction)` and
`correct_true += sum((label == prediction) * (label == 1))` (the latter sum
cast to `np.float32`). -/
noncomputable def F1State.update (s : F1State) (output : List ℝ) (target : List ℤ) :
    F1State :=
  let label := target.map toByte
  let prediction := output.map binarize
  { y_true := s.y_true + label.sum
    y_pred := s.y_pred + prediction.sum
    correct_true := s.correct_true + ((List.zipWith correctTrueTerm label prediction).sum : ℚ) }

/-- `BinaryF1.avg_value` (part_001, lines 595-604):
`recall = correct_true / y_pred`, `precision = correct_true / y_true`,
`f1 = (2 * precision * recall) / (precision + recall)`.
The Python code has no guard for a zero denominator: on the fresh integer
counters a zero `y_pred` or `y_true` raises `ZeroDivisionError`, and on numpy
counters the zero division propagates NaN; both outcomes (likewise a zero
`precision + recall`) are modelled by `none`. -/
def F1State.avg_value (s : F1State) : Option ℚ :=
  if s.y_pred = 0 ∨ s.y_true = 0 then none
  else if s.correct_true / (s.y_true : ℚ) + s.correct_true / (s.y_pred : ℚ) = 0 then none
  else some (2 * (s.correct_true / (s.y_true : ℚ)) * (s.correct_true / (s.y_pred : ℚ)) /
    (s.correct_true / (s.y_true : ℚ) + s.correct_true / (s.y_pred : ℚ)))

/-- The same computation as `F1State.avg_value` but with the definitions of
precision and recall interchanged (`recall = correct_true / y_true`,
`precision = correct_true / y_pred`), i.e. the roles the class docstring
describes.  Used to compare against the code as written. -/
def F1State.avg_value_prSwapped (s : F1State) : Option ℚ :=
  if s.y_true = 0 ∨ s.y_pred = 0 then none
  else if s.correct_true / (s.y_pred : ℚ) + s.correct_true / (s.y_true : ℚ) = 0 then none
  else some (2 * (s.correct_true / (s.y_pred : ℚ)) * (s.correct_true / (s.y_true : ℚ)) /
    (s.correct_true / (s.y_pred : ℚ) + s.correct_true / (s.y_true : ℚ)))

/-- A sequence of `BinaryF1.update` calls applied in order, each with its
model output and ground-truth mask. -/
noncomputable def runUpdates (s : F1State) (calls : List (List ℝ × List ℤ)) : F1State :=
  calls.foldl (fun st c => st.update c.1 c.2) s

/-- The model output of the mock model of the end-to-end scenario: it returns
the ground-truth mask unchanged (as floats). -/
noncomputable def mockModel (target : List ℤ) : List ℝ :=
  target.map (fun (n : ℤ) => (n : ℝ))

/-- An all-zero background mask (400 pixels). -/
def zeroMask : List ℤ := List.replicate 400 0

/-- A mask with exactly 100 foreground pixels (and 300 background pixels). -/
def fgMask : List ℤ := List.replicate 100 1 ++ List.replicate 300 0

/-- The synthetic dataset of the end-to-end scenario: 2 background masks and
2 masks with exactly 100 foreground pixels each. -/
def syntheticDataset : List (List ℤ) := [zeroMask, zeroMask, fgMask, fgMask]

/-- The accumulator state after scoring the mock model on the synthetic
dataset (one `update` call per sample). -/
noncomputable def syntheticFinal : F1State :=
  runUpdates F1State.init (syntheticDataset.map (fun t => (mockModel t, t)))

/-! ### KitsDataLoader (part_001, lines 671-728)

The constructor globs `case_*/segmentation_frames/*png`, raises `ValueError`
when the glob is empty, then keeps only the masks whose case directory is in
the hard-coded validation-case list; `__len__` returns the length of the kept
list.  A glob entry is modelled by the name of its case directory
(`mask.parents[1].name`) together with its file name; `allmasks` stands for
the (already sorted) glob result, and the `ValueError` raise is modelled as
`Except.error`. -/

/-- One entry of the `case_*/segmentation_frames/*png` glob. -/
structure MaskPath where
  caseName : String
  frame : String
deriving DecidableEq, Repr

/-- The hard-coded `val_indices` list of `KitsDataLoader.__init__`. -/
def val_indices : List ℕ :=
  [7, 10, 14, 15, 30, 60, 71, 74, 75, 81, 92, 93,
   106, 115, 117, 119, 134, 161, 192, 196, 203]

/-- Python `f"case_{i:05d}"`: the decimal digits of `i`, left-padded with
zeros to width 5, behind `case_`. -/
def caseNameOf (i : ℕ) : String :=
  let s := toString i
  "case_" ++ String.mk (List.replicate (5 - s.length) '0') ++ s

/-- `val_cases = [f"case_{i:05d}" for i in val_indices]`. -/
def val_cases : List String := val_indices.map caseNameOf

/-- The state of a constructed `KitsDataLoader` (the `self.dataset` list). -/
structure KitsLoader where
  dataset : List MaskPath
deriving DecidableEq, Repr

/-- `KitsDataLoader.__init__(basedir)` (part_001, lines 671-697): raises
`ValueError` when the glob over all cases is empty, and otherwise keeps the
masks whose case is in `val_cases`. -/
def kitsInit (allmasks : List MaskPath) : Except String KitsLoader :=
  if allmasks.length = 0 then
    Except.error "basedir does not contain data"
  else
    Except.ok { dataset := allmasks.filter (fun m => val_cases.contains m.caseName) }

/-- `KitsDataLoader.__len__` (part_001, lines 727-728). -/
def kitsLen (d : KitsLoader) : ℕ := d.dataset.length

/-! ### The BERT validate function (part_000, lines 385-405)

`validate(model, dataset)` compiles the model (compilation is an external,
deterministic black box, so the compiled model is taken as the function
`model` itself), loads a fresh glue/mrpc metric, and for every batch feeds
`argmax` of the model output together with the batch label to the metric;
finally it computes the F1 score.  The metric object of the external
`evaluate` library is modelled by the list of (prediction, reference) pairs it
has been fed. -/

/-- One batch of the GLUE dataset: its tokenized model inputs and its label. -/
structure GlueBatch (α : Type) where
  features : α
  labels : ℤ
deriving DecidableEq, Repr

/-- The accumulated batches of a glue/mrpc metric instance. -/
structure GlueMetricState where
  pairs : List (ℤ × ℤ)
deriving DecidableEq, Repr

/-- A freshly loaded metric (`evaluate.load('glue', 'mrpc')`). -/
def GlueMetricState.load : GlueMetricState := ⟨[]⟩

/-- `metric.add_batch(predictions=[p], references=[r])`. -/
def GlueMetricState.add_batch (m : GlueMetricState) (p r : ℤ) : GlueMetricState :=
  ⟨m.pairs ++ [(p, r)]⟩

/-- `np.argmax` on a vector: index of the first maximal entry
(`argmaxGo xs i best bestVal` scans `xs`, whose head has index `i`). -/
def argmaxGo : List ℚ → ℕ → ℕ → ℚ → ℕ
  | [], _, best, _ => best
  | x :: xs, i, best, bestVal =>
    if bestVal < x then argmaxGo xs (i + 1) i x else argmaxGo xs (i + 1) best bestVal

/-- `np.argmax` on a vector (0 on the empty vector). -/
def argmax : List ℚ → ℕ
  | [] => 0
  | x :: xs => argmaxGo xs 1 0 x

/-- Modelled from the spec: the glue/mrpc `compute` step of the external
`evaluate` library (not in src/), the binary F1 score of the accumulated
(prediction, reference) pairs — the harmonic mean of precision and recall,
with the degenerate value 0 when there are no positives at all. -/
def computeF1 (pairs : List (ℤ × ℤ)) : ℚ :=
  let tp : ℚ := (pairs.countP (fun pr => pr.1 == 1 && pr.2 == 1) : ℕ)
  let fp : ℚ := (pairs.countP (fun pr => pr.1 == 1 && pr.2 != 1) : ℕ)
  let fn : ℚ := (pairs.countP (fun pr => pr.1 != 1 && pr.2 == 1) : ℕ)
  if 2 * tp + fp + fn = 0 then 0 else 2 * tp / (2 * tp + fp + fn)

/-- `validate(model, dataset)` (part_000, lines 385-405).  The parameter
`_priorMetric` stands for whatever metric state exists before the call; the
function loads a fresh metric instead of reusing it, which is what the
determinism of repeated scoring rests on. -/
def validate {α : Type} (model : α → List ℚ) (dataset : List (GlueBatch α))
    (_priorMetric : GlueMetricState) : ℚ :=
  let metric := GlueMetricState.load
  let final := dataset.foldl
    (fun m batch => m.add_batch ((argmax (model batch.features) : ℤ)) batch.labels) metric
  computeF1 final.pairs

/-! ### Statistics collection of the quantization pipeline -/

/-- The outcome of a statistics-collection pass: the samples that were run
through the model, and whether a warning-level note was emitted. -/
structure StatsResult (α : Type) where
  used : List α
  warned : Bool
deriving DecidableEq, Repr

/-- Modelled from the spec: the statistics-collection step of the POT
quantization pipeline lives in the external `openvino.tools.pot` library and
is not in src/; the notebook (part_001, lines 797-851) only configures it with
`stat_subset_size = 1000` and invokes it through `pipeline.run`.  Per the
spec, `collect_statistics` runs up to `subset_size` samples through the model;
an empty dataset is fatal (`ConfigurationError`, modelled as `Except.error`),
and when the dataset is smaller than `subset_size` the whole dataset is used
and a warning-level note (not an error) is emitted. -/
def collect_statistics {α : Type} (dataset : List α) (subset_size : ℕ) :
    Except String (StatsResult α) :=
  if dataset.length = 0 then
    Except.error "ConfigurationError: statistics collection on an empty dataset"
  else
    Except.ok { used := dataset.take subset_size
                warned := decide (dataset.length < subset_size) }

/-! ### The asynchronous inference queue (part_001, lines 279-328)

The notebook submits one request per frame with `infer_queue.start_async(
inputs, userdata)` and then calls `infer_queue.wait_all()`; the queue itself
(`AsyncInferQueue` of `openvino.runtime`) is an external collaborator that is
not in src/, so it is modelled from the spec: submissions accumulate
outstanding requests, each completion (on an implementation-defined worker, in
an order unrelated to submission order) invokes the registered callback with
the userdata of the completed request, and `wait_all` returns once no request
is outstanding.  A queue state holds the outstanding userdata tags and the
log of callback invocations (the userdata each invocation received). -/

/-- A queue state: outstanding request tags and the callback-invocation log. -/
structure AsyncQueue (τ : Type) where
  pending : List τ
  log : List τ

/-- `infer_queue.start_async(inputs, userdata)`: adds an outstanding request
carrying its userdata tag. -/
def AsyncQueue.start_async {τ : Type} (q : AsyncQueue τ) (tag : τ) : AsyncQueue τ :=
  { pending := q.pending ++ [tag], log := q.log }

/-- The queue obtained by submitting the given tags, in order, to a fresh
queue. -/
def submitAll {τ : Type} (tags : List τ) : AsyncQueue τ :=
  tags.foldl AsyncQueue.start_async ⟨[], []⟩

/-- Modelled from the spec: one completion step of the external queue.  An
arbitrary outstanding request finishes (completion order is
implementation-defined) and the completion callback is invoked exactly once
with the userdata of that request. -/
inductive QStep {τ : Type} : AsyncQueue τ → AsyncQueue τ → Prop
  | complete (pre post : List τ) (t : τ) (log : List τ) :
      QStep ⟨pre ++ t :: post, log⟩ ⟨pre ++ post, log ++ [t]⟩

/-- A completed run of the queue: from the given state, some sequence of
completion steps drains every outstanding request, at which point `wait_all`
returns.  The second component is the final callback log. -/
def QueueRun {τ : Type} (q : AsyncQueue τ) (finalLog : List τ) : Prop :=
  Relation.ReflTransGen QStep q ⟨[], finalLog⟩

/-! ### The benchmark cells of the BERT notebook (part_000, lines 437-499)

The cell sequence is modelled as a straight-line trace of events: the model is
read and compiled (`compiled_model_fp32 = core.compile_model(...)`, lines
437-450), some untimed work follows (input preparation and the separate
PyTorch timing block), then `start = time.perf_counter()`, a loop of exactly
`num_samples` calls `compiled_model_fp32(inputs)` on the one prepared input
(`sample = data_source[0]`, modelled as input id 0), then
`end = time.perf_counter()`; the cell reports `time_ir = end - start` and the
throughput `SPS: num_samples / time_ir`.  A duration model `d` assigns each
event the wall-clock time it takes, and the difference of the two clock
readings is the total duration of the events between them. -/

/-- One event of the benchmark trace.  `inferCall i` is one inference call on
the prepared input with id `i`. -/
inductive BenchEvent : Type
  | compileModel : BenchEvent
  | otherWork : BenchEvent
  | timerStart : BenchEvent
  | inferCall (inputId : ℕ) : BenchEvent
  | timerStop : BenchEvent
deriving DecidableEq, Repr

/-- Whether an event is the `start = time.perf_counter()` reading. -/
def BenchEvent.isStart : BenchEvent → Bool
  | .timerStart => true
  | _ => false

/-- Whether an event is the `end = time.perf_counter()` reading. -/
def BenchEvent.isStop : BenchEvent → Bool
  | .timerStop => true
  | _ => false

/-- The trace of the FP32 benchmark cells for `num_samples` iterations:
compile, untimed preparation work, timer start, the inference loop on the
single prepared input, timer stop. -/
def benchTrace (num_samples : ℕ) : List BenchEvent :=
  [BenchEvent.compileModel, BenchEvent.otherWork, BenchEvent.timerStart] ++
    List.replicate num_samples (BenchEvent.inferCall 0) ++ [BenchEvent.timerStop]

/-- The events of a trace that lie strictly between the timer start and the
timer stop, i.e. the work covered by `end - start`. -/
def timedSection (l : List BenchEvent) : List BenchEvent :=
  (((l.dropWhile (fun e => !(e.isStart))).drop 1).takeWhile (fun e => !(e.isStop)))

/-- `time_ir = end - start` for the benchmark trace under the duration model
`d`: the total duration of the events between the two clock readings. -/
def time_ir (d : BenchEvent → ℚ) (num_samples : ℕ) : ℚ :=
  ((timedSection (benchTrace num_samples)).map d).sum

/-- The throughput the cell prints: `SPS: num_samples / time_ir`. -/
def reportedSPS (d : BenchEvent → ℚ) (num_samples : ℕ) : ℚ :=
  (num_samples : ℚ) / time_ir d num_samples

/-! ### Helper lemmas about sigmoid, rounding and binarization -/

theorem sigmoid_eq (x : ℝ) : sigmoid x = 1 / (1 + Real.exp (-x)) := by
  unfold sigmoid
  rw [Real.exp_zero, Real.exp_neg, Real.exp_log (by positivity), one_div]

theorem sigmoid_pos (x : ℝ) : 0 < sigmoid x := by
  rw [sigmoid_eq]; positivity

theorem sigmoid_lt_one (x : ℝ) : sigmoid x < 1 := by
  rw [sigmoid_eq, div_lt_one (by positivity)]
  linarith [Real.exp_pos (-x)]

theorem sigmoid_zero : sigmoid 0 = 1 / 2 := by
  rw [sigmoid_eq]
  norm_num [Real.exp_zero]

theorem half_lt_sigmoid {x : ℝ} (h : 0 < x) : 1 / 2 < sigmoid x := by
  rw [sigmoid_eq]
  have h1 : Real.exp (-x) < 1 := by
    have := Real.exp_lt_exp.mpr (neg_lt_zero.mpr h)
    rwa [Real.exp_zero] at this
  rw [lt_div_iff (by positivity)]
  linarith

theorem sigmoid_lt_half {x : ℝ} (h : x < 0) : sigmoid x < 1 / 2 := by
  rw [sigmoid_eq]
  have h1 : 1 < Real.exp (-x) := by
    have := Real.exp_lt_exp.mpr (neg_pos.mpr h)
    rwa [Real.exp_zero] at this
  rw [div_lt_iff (by positivity)]
  linarith

theorem roundHalfEven_half : roundHalfEven (1 / 2 : ℝ) = 0 := by
  have hfl : ⌊(1 / 2 : ℝ)⌋ = 0 := by
    rw [Int.floor_eq_zero_iff]
    constructor <;> norm_num
  have hf : Int.fract (1 / 2 : ℝ) = 1 / 2 := by
    rw [Int.fract, hfl]
    norm_num
  unfold roundHalfEven
  rw [hf, hfl, if_neg (lt_irrefl _), if_pos rfl, if_pos even_zero]

theorem roundHalfEven_of_half_lt {x : ℝ} (h1 : 1 / 2 < x) (h2 : x < 1) :
    roundHalfEven x = 1 := by
  have hfl : ⌊x⌋ = 0 := by
    rw [Int.floor_eq_zero_iff]
    exact ⟨by linarith, by linarith⟩
  have hf : Int.fract x = x := by
    rw [Int.fract, hfl]
    norm_num
  unfold roundHalfEven
  rw [hf, hfl, if_neg (by linarith), if_neg (by linarith)]
  decide

theorem roundHalfEven_of_lt_half {x : ℝ} (h1 : 0 < x) (h2 : x < 1 / 2) :
    roundHalfEven x = 0 := by
  have hfl : ⌊x⌋ = 0 := by
    rw [Int.floor_eq_zero_iff]
    exact ⟨by linarith, by linarith⟩
  have hf : Int.fract x = x := by
    rw [Int.fract, hfl]
    norm_num
  unfold roundHalfEven
  rw [hf, hfl, if_pos h2]

theorem binarize_zero : binarize 0 = 0 := by
  unfold binarize
  rw [sigmoid_zero, roundHalfEven_half]
  decide

theorem binarize_of_pos {x : ℝ} (h : 0 < x) : binarize x = 1 := by
  unfold binarize
  rw [roundHalfEven_of_half_lt (half_lt_sigmoid h) (sigmoid_lt_one x)]
  decide

theorem binarize_of_neg {x : ℝ} (h : x < 0) : binarize x = 0 := by
  unfold binarize
  rw [roundHalfEven_of_lt_half (sigmoid_pos x) (sigmoid_lt_half h)]
  decide

theorem binarize_eq_zero_or_one (x : ℝ) : binarize x = 0 ∨ binarize x = 1 := by
  rcases lt_trichotomy x 0 with h | h | h
  · exact Or.inl (binarize_of_neg h)
  · exact Or.inl (h ▸ binarize_zero)
  · exact Or.inr (binarize_of_pos h)

theorem binarize_nonneg (x : ℝ) : 0 ≤ binarize x := by
  rcases binarize_eq_zero_or_one x with h | h <;> rw [h] <;> decide

/-! ### Helper lemmas about BinaryF1.update -/

theorem map_toByte_binary (t : List ℤ) (h : ∀ x ∈ t, x = 0 ∨ x = 1) :
    t.map toByte = t := by
  induction t with
  | nil => rfl
  | cons a t ih =>
    have ha : toByte a = a := by
      rcases h a (List.mem_cons_self a t) with rfl | rfl <;> decide
    simp only [List.map_cons, ha, ih (fun x hx => h x (List.mem_cons_of_mem a hx))]

theorem map_binarize_binary (t : List ℤ) (h : ∀ x ∈ t, x = 0 ∨ x = 1) :
    t.map (fun (n : ℤ) => binarize (n : ℝ)) = t := by
  induction t with
  | nil => rfl
  | cons a t ih =>
    have ha : binarize ((a : ℤ) : ℝ) = a := by
      rcases h a (List.mem_cons_self a t) with rfl | rfl
      · rw [Int.cast_zero, binarize_zero]
      · rw [Int.cast_one, binarize_of_pos (by norm_num : (0 : ℝ) < 1)]
    simp only [List.map_cons, ha, ih (fun x hx => h x (List.mem_cons_of_mem a hx))]

theorem zipWith_correctTrueTerm_self (t : List ℤ) (h : ∀ x ∈ t, x = 0 ∨ x = 1) :
    (List.zipWith correctTrueTerm t t).sum = t.sum := by
  induction t with
  | nil => rfl
  | cons a t ih =>
    have ha : correctTrueTerm a a = a := by
      rcases h a (List.mem_cons_self a t) with rfl | rfl <;> decide
    simp only [List.zipWith_cons_cons, List.sum_cons, ha,
      ih (fun x hx => h x (List.mem_cons_of_mem a hx))]

/-- On a 0/1 mask, one `update` call of the mock model (whose output is the
mask itself) increments every counter by the number of foreground pixels. -/
theorem update_mock (s : F1State) (t : List ℤ) (h : ∀ x ∈ t, x = 0 ∨ x = 1) :
    s.update (mockModel t) t =
      ⟨s.y_true + t.sum, s.y_pred + t.sum, s.correct_true + (t.sum : ℚ)⟩ := by
  have hb : (mockModel t).map binarize = t := by
    unfold mockModel
    rw [List.map_map]
    exact map_binarize_binary t h
  unfold F1State.update
  simp only [map_toByte_binary t h, hb, zipWith_correctTrueTerm_self t h]

theorem correctTrueTerm_nonneg (l p : ℤ) : 0 ≤ correctTrueTerm l p := by
  unfold correctTrueTerm
  have h1 : (0 : ℤ) ≤ if l = p then 1 else 0 := by split <;> decide
  have h2 : (0 : ℤ) ≤ if l = 1 then 1 else 0 := by split <;> decide
  exact mul_nonneg h1 h2

theorem zipWith_sum_nonneg (f : ℤ → ℤ → ℤ) (hf : ∀ a b, 0 ≤ f a b) :
    ∀ (as bs : List ℤ), 0 ≤ (List.zipWith f as bs).sum := by
  intro as
  induction as with
  | nil => intro bs; simp
  | cons a as ih =>
    intro bs
    cases bs with
    | nil => simp
    | cons b bs =>
      simp only [List.zipWith_cons_cons, List.sum_cons]
      exact add_nonneg (hf a b) (ih bs)

/-- A single `update` call never decreases any of the three counters,
provided every ground-truth pixel is non-negative after the byte cast. -/
theorem update_counters_mono (s : F1State) (output : List ℝ) (target : List ℤ)
    (h : ∀ x ∈ target, 0 ≤ toByte x) :
    s.y_true ≤ (s.update output target).y_true ∧
    s.y_pred ≤ (s.update output target).y_pred ∧
    s.correct_true ≤ (s.update output target).correct_true := by
  unfold F1State.update
  refine ⟨?_, ?_, ?_⟩
  · have : 0 ≤ (target.map toByte).sum := by
      apply List.sum_nonneg
      intro y hy
      rcases List.mem_map.mp hy with ⟨x, hx, rfl⟩
      exact h x hx
    simpa using this
  · have : 0 ≤ (output.map binarize).sum := by
      apply List.sum_nonneg
      intro y hy
      rcases List.mem_map.mp hy with ⟨x, _, rfl⟩
      exact binarize_nonneg x
    simpa using this
  · have : (0 : ℚ) ≤ ((List.zipWith correctTrueTerm (target.map toByte)
        (output.map binarize)).sum : ℚ) := by
      exact_mod_cast zipWith_sum_nonneg correctTrueTerm correctTrueTerm_nonneg _ _
    simpa using this

/-- The code as written and the precision/recall interchanged variant of
`avg_value` agree on every state. -/
theorem avg_value_prSwap_eq (s : F1State) : s.avg_value = s.avg_value_prSwapped := by
  unfold F1State.avg_value F1State.avg_value_prSwapped
  by_cases h1 : s.y_pred = 0 ∨ s.y_true = 0
  · rw [if_pos h1, if_pos (Or.symm h1)]
  · rw [if_neg h1, if_neg (fun h => h1 (Or.symm h))]
    rw [add_comm (s.correct_true / (s.y_pred : ℚ)) (s.correct_true / (s.y_true : ℚ))]
    by_cases h2 : s.correct_true / (s.y_true : ℚ) + s.correct_true / (s.y_pred : ℚ) = 0
    · rw [if_pos h2, if_pos h2]
    · rw [if_neg h2, if_neg h2]
      congr 1
      ring

/-! ### Helper lemmas about the asynchronous queue and the benchmark trace -/

/-- Submitting the tags one by one leaves them all outstanding, in submission
order, with no callback yet invoked. -/
theorem submitAll_eq {τ : Type} (tags : List τ) : submitAll tags = ⟨tags, []⟩ := by
  have key : ∀ (tags pending log : List τ),
      tags.foldl AsyncQueue.start_async ⟨pending, log⟩ = ⟨pending ++ tags, log⟩ := by
    intro tags
    induction tags with
    | nil => intro pending log; simp [AsyncQueue.start_async]
    | cons t tags ih =>
      intro pending log
      simp only [List.foldl_cons, AsyncQueue.start_async]
      rw [ih]
      simp
  simpa using key tags [] []

/-- Each completion step moves one outstanding tag to the callback log: the
multiset of outstanding tags plus logged tags is preserved. -/
theorem qStep_perm {τ : Type} {q r : AsyncQueue τ} (h : QStep q r) :
    (q.pending ++ q.log).Perm (r.pending ++ r.log) := by
  cases h with
  | complete pre post t log =>
    show ((pre ++ t :: post) ++ log).Perm ((pre ++ post) ++ (log ++ [t]))
    have h1 : (pre ++ t :: post) ++ log = pre ++ t :: (post ++ log) := by simp
    have h2 : (pre ++ post) ++ (log ++ [t]) = pre ++ ((post ++ log) ++ [t]) := by simp
    rw [h1, h2]
    exact List.Perm.append_left pre (List.perm_append_singleton t (post ++ log)).symm

/-- Along any sequence of completion steps the multiset of outstanding plus
logged tags is preserved. -/
theorem qRun_perm {τ : Type} {q r : AsyncQueue τ}
    (h : Relation.ReflTransGen QStep q r) :
    (q.pending ++ q.log).Perm (r.pending ++ r.log) := by
  induction h with
  | refl => exact List.Perm.refl _
  | tail _ hstep ih => exact ih.trans (qStep_perm hstep)

/-- `takeWhile` runs through a block of elements the predicate accepts. -/
theorem takeWhile_replicate_append {α : Type} (p : α → Bool) (a : α) (ha : p a = true)
    (n : ℕ) (l : List α) :
    (List.replicate n a ++ l).takeWhile p = List.replicate n a ++ l.takeWhile p := by
  induction n with
  | zero => simp
  | succ n ih =>
    simp only [List.replicate_succ, List.cons_append, List.takeWhile_cons, ha, ih]
    simp

/-! ### The claims -/

/-- C1, counterexample: reading `avg_value` after zero `update` calls does not
return the degenerate score 0 — the computation divides by zero (modelled by
`none`), refuting the claimed behaviour at the freshly constructed state. -/
theorem c1_counterexample :
    F1State.avg_value F1State.init = none ∧ F1State.avg_value F1State.init ≠ some 0 := by
  decide

/-- C1, amended: in every state where the predicted-positive counter `y_pred`
is zero — in particular after zero `update` calls — `avg_value` performs a
division by zero (a `ZeroDivisionError` on the fresh integer counters, NaN on
numpy counters; modelled as `none`) instead of returning the degenerate
score 0. -/
theorem c1_avg_value_div_zero (s : F1State) (h : s.y_pred = 0) :
    s.avg_value = none := by
  unfold F1State.avg_value
  rw [if_pos (Or.inl h)]

/-- C1, witness: the amended statement at the state after zero update calls. -/
theorem c1_witness : F1State.init.y_pred = 0 ∧ F1State.init.avg_value = none :=
  ⟨rfl, c1_avg_value_div_zero F1State.init rfl⟩

/-- C2: on the synthetic dataset of 4 samples (2 all-zero background masks and
2 masks with exactly 100 foreground pixels each), accumulating with
`BinaryF1.update` over the mock model that outputs the ground truth unchanged
(the output passing through sigmoid and numpy rounding inside `update`) and
then reading `avg_value` yields the perfect score F1 = 1. -/
theorem c2_perfect_score : syntheticFinal.avg_value = some 1 := by
  have hz : ∀ x ∈ zeroMask, x = 0 ∨ x = 1 := fun x hx =>
    Or.inl (List.eq_of_mem_replicate hx)
  have hf : ∀ x ∈ fgMask, x = 0 ∨ x = 1 := by
    intro x hx
    rcases List.mem_append.mp hx with hm | hm
    · exact Or.inr (List.eq_of_mem_replicate hm)
    · exact Or.inl (List.eq_of_mem_replicate hm)
  have hzs : zeroMask.sum = 0 := by
    unfold zeroMask
    rw [List.sum_replicate, smul_zero]
  have hfs : fgMask.sum = 100 := by
    unfold fgMask
    rw [List.sum_append, List.sum_replicate, List.sum_replicate, nsmul_eq_mul, nsmul_eq_mul]
    norm_num
  have hfinal : syntheticFinal = ⟨200, 200, 200⟩ := by
    unfold syntheticFinal runUpdates syntheticDataset
    simp only [List.map_cons, List.map_nil, List.foldl_cons, List.foldl_nil]
    rw [update_mock _ _ hz, update_mock _ _ hz, update_mock _ _ hf, update_mock _ _ hf,
      hzs, hfs]
    norm_num [F1State.init]
  rw [hfinal]
  norm_num [F1State.avg_value]

/-- C8, counterexample: a reachable state with both `y_true` and `y_pred`
nonzero (one update with mask `[1, 0]` and model output `[-1, 1]`, so one
false negative and one false positive) in which `avg_value` is not the Dice
coefficient `2 * correct_true / (y_true + y_pred)`: with zero true positives
the code divides by zero (`precision + recall = 0`) instead of returning the
Dice value 0. -/
theorem c8_counterexample :
    (F1State.init.update [(-1 : ℝ), (1 : ℝ)] [(1 : ℤ), (0 : ℤ)]).y_true ≠ 0 ∧
    (F1State.init.update [(-1 : ℝ), (1 : ℝ)] [(1 : ℤ), (0 : ℤ)]).y_pred ≠ 0 ∧
    (F1State.init.update [(-1 : ℝ), (1 : ℝ)] [(1 : ℤ), (0 : ℤ)]).avg_value ≠
      some (2 * (F1State.init.update [(-1 : ℝ), (1 : ℝ)] [(1 : ℤ), (0 : ℤ)]).correct_true /
        (((F1State.init.update [(-1 : ℝ), (1 : ℝ)] [(1 : ℤ), (0 : ℤ)]).y_true : ℚ) +
         ((F1State.init.update [(-1 : ℝ), (1 : ℝ)] [(1 : ℤ), (0 : ℤ)]).y_pred : ℚ))) := by
  have hb : List.map binarize [(-1 : ℝ), (1 : ℝ)] = [(0 : ℤ), 1] := by
    rw [List.map_cons, List.map_cons, List.map_nil,
      binarize_of_neg (by norm_num : (-1 : ℝ) < 0),
      binarize_of_pos (by norm_num : (0 : ℝ) < 1)]
  have hupd : F1State.init.update [(-1 : ℝ), (1 : ℝ)] [(1 : ℤ), (0 : ℤ)]
      = ⟨1, 1, 0⟩ := by
    unfold F1State.update
    simp only [hb]
    norm_num [toByte, correctTrueTerm, F1State.init]
  rw [hupd]
  refine ⟨by decide, by decide, ?_⟩
  norm_num [F1State.avg_value]
  decide

/-- C8, amended: in every state where `y_true` and `y_pred` are positive and
`correct_true` is nonzero (at least one true positive), `avg_value` equals the
Dice coefficient `2 * correct_true / (y_true + y_pred)`; and on every state
whatsoever the returned value is unchanged if the definitions of precision and
recall in the code are interchanged, so the swapped precision/recall naming
does not affect the score.  (When `correct_true = 0` the code instead divides
by zero, see the counterexample.) -/
theorem c8_dice (s : F1State) (ht : 0 < s.y_true) (hp : 0 < s.y_pred)
    (hc : s.correct_true ≠ 0) :
    s.avg_value = some (2 * s.correct_true / ((s.y_true : ℚ) + (s.y_pred : ℚ))) ∧
    s.avg_value = s.avg_value_prSwapped := by
  refine ⟨?_, avg_value_prSwap_eq s⟩
  have hT : (0 : ℚ) < (s.y_true : ℚ) := by exact_mod_cast ht
  have hQ : (0 : ℚ) < (s.y_pred : ℚ) := by exact_mod_cast hp
  unfold F1State.avg_value
  rw [if_neg (by push_neg; exact ⟨hp.ne', ht.ne'⟩)]
  have hsum : s.correct_true / (s.y_true : ℚ) + s.correct_true / (s.y_pred : ℚ) ≠ 0 := by
    rw [div_add_div _ _ hT.ne' hQ.ne']
    apply div_ne_zero
    · have hnum : s.correct_true * (s.y_pred : ℚ) + (s.y_true : ℚ) * s.correct_true
          = s.correct_true * ((s.y_pred : ℚ) + (s.y_true : ℚ)) := by ring
      rw [hnum]
      exact mul_ne_zero hc (by positivity)
    · exact (mul_pos hT hQ).ne'
  rw [if_neg hsum]
  congr 1
  have hT' : ((s.y_true : ℚ)) ≠ 0 := hT.ne'
  have hQ' : ((s.y_pred : ℚ)) ≠ 0 := hQ.ne'
  have hTQ : ((s.y_true : ℚ)) + (s.y_pred : ℚ) ≠ 0 := by positivity
  have hden : s.correct_true * (s.y_true : ℚ) + s.correct_true * (s.y_pred : ℚ) ≠ 0 := by
    have hfac : s.correct_true * (s.y_true : ℚ) + s.correct_true * (s.y_pred : ℚ)
        = s.correct_true * ((s.y_true : ℚ) + (s.y_pred : ℚ)) := by ring
    rw [hfac]
    exact mul_ne_zero hc hTQ
  field_simp
  linear_combination (2 * s.correct_true) * mul_inv_cancel₀ hden

/-- C8, witness: the amended statement at the state with one pixel counted in
every counter, where F1 and Dice are both 1. -/
theorem c8_witness :
    (⟨1, 1, 1⟩ : F1State).avg_value =
      some (2 * (⟨1, 1, 1⟩ : F1State).correct_true /
        (((⟨1, 1, 1⟩ : F1State).y_true : ℚ) + ((⟨1, 1, 1⟩ : F1State).y_pred : ℚ))) ∧
    (⟨1, 1, 1⟩ : F1State).avg_value = (⟨1, 1, 1⟩ : F1State).avg_value_prSwapped :=
  c8_dice ⟨1, 1, 1⟩ (by decide) (by decide) (by decide)

/-- C10: along any sequence of `update` calls starting from the reset state,
each of the three counters is monotonically non-decreasing: appending one more
call (whose ground-truth pixels are non-negative after the byte cast; the
sigmoid-then-rounded binarized predictions are non-negative unconditionally)
never decreases `y_true`, `y_pred` or `correct_true`. -/
theorem c10_counters_monotone (calls : List (List ℝ × List ℤ))
    (c : List ℝ × List ℤ) (h : ∀ x ∈ c.2, 0 ≤ toByte x) :
    (runUpdates F1State.init calls).y_true ≤
      (runUpdates F1State.init (calls ++ [c])).y_true ∧
    (runUpdates F1State.init calls).y_pred ≤
      (runUpdates F1State.init (calls ++ [c])).y_pred ∧
    (runUpdates F1State.init calls).correct_true ≤
      (runUpdates F1State.init (calls ++ [c])).correct_true := by
  have hrw : runUpdates F1State.init (calls ++ [c])
      = (runUpdates F1State.init calls).update c.1 c.2 := by
    unfold runUpdates
    rw [List.foldl_append]
    rfl
  rw [hrw]
  exact update_counters_mono _ c.1 c.2 h

/-- C10, witness: one update call with a single foreground pixel appended to
the empty call sequence. -/
theorem c10_witness :
    (runUpdates F1State.init ([] : List (List ℝ × List ℤ))).y_true ≤
      (runUpdates F1State.init (([] : List (List ℝ × List ℤ)) ++
        [([(1 : ℝ)], [(1 : ℤ)])])).y_true ∧
    (runUpdates F1State.init ([] : List (List ℝ × List ℤ))).y_pred ≤
      (runUpdates F1State.init (([] : List (List ℝ × List ℤ)) ++
        [([(1 : ℝ)], [(1 : ℤ)])])).y_pred ∧
    (runUpdates F1State.init ([] : List (List ℝ × List ℤ))).correct_true ≤
      (runUpdates F1State.init (([] : List (List ℝ × List ℤ)) ++
        [([(1 : ℝ)], [(1 : ℤ)])])).correct_true :=
  c10_counters_monotone [] ([(1 : ℝ)], [(1 : ℤ)]) (by decide)

/-- C3, counterexample: a backing dataset with exactly one sample, lying in a
case outside the hard-coded validation list, for which construction succeeds
yet the length operation returns 0 (not the backing sample count 1) — so
`length` does not return the sample count of the backing dataset. -/
theorem c3_counterexample :
    (kitsInit [MaskPath.mk "case_00000" "frame_000"]).map kitsLen = Except.ok 0 ∧
    ([MaskPath.mk "case_00000" "frame_000"] : List MaskPath).length = 1 :=
  ⟨rfl, rfl⟩

/-- C3, amended: construction raises (a `ValueError`, realizing the
fail-fast `ConfigurationError` of the spec) exactly when the unfiltered glob
over the backing directory is empty; when the backing dataset has at least one
sample, construction succeeds and the length operation returns the number of
backing samples that belong to the hard-coded validation cases — which can be
smaller than the backing sample count. -/
theorem c3_fail_fast (allmasks : List MaskPath) :
    (allmasks = [] →
      kitsInit allmasks = Except.error "basedir does not contain data") ∧
    (allmasks ≠ [] → ∃ d, kitsInit allmasks = Except.ok d ∧
      kitsLen d = (allmasks.filter (fun m => val_cases.contains m.caseName)).length) := by
  constructor
  · intro h
    subst h
    rfl
  · intro h
    unfold kitsInit
    rw [if_neg (by simpa [List.length_eq_zero] using h)]
    exact ⟨_, rfl, rfl⟩

/-- C3, witness: the amended statement at a one-sample backing dataset that
lies inside the validation list (case 7). -/
theorem c3_witness :
    ∃ d, kitsInit [MaskPath.mk "case_00007" "frame_000"] = Except.ok d ∧
      kitsLen d = (([MaskPath.mk "case_00007" "frame_000"] : List MaskPath).filter
        (fun m => val_cases.contains m.caseName)).length :=
  (c3_fail_fast [MaskPath.mk "case_00007" "frame_000"]).2 (by decide)

/-- C9: the emptiness check of `KitsDataLoader.__init__` is applied to the
unfiltered glob over all cases before restricting to the hard-coded
validation-case list, so for every non-empty backing directory whose masks all
lie in cases outside that list, the constructor succeeds without raising and
the length operation returns 0 — a silently empty data source. -/
theorem c9_silently_empty (allmasks : List MaskPath) (hne : allmasks ≠ [])
    (hout : ∀ m ∈ allmasks, ¬ val_cases.contains m.caseName) :
    ∃ d, kitsInit allmasks = Except.ok d ∧ kitsLen d = 0 := by
  unfold kitsInit
  rw [if_neg (by simpa [List.length_eq_zero] using hne)]
  refine ⟨_, rfl, ?_⟩
  unfold kitsLen
  rw [List.length_eq_zero, List.filter_eq_nil]
  intro m hm
  simpa using hout m hm

/-- C9, witness: a backing directory with one mask in case 0, which is not a
validation case. -/
theorem c9_witness :
    ∃ d, kitsInit [MaskPath.mk "case_00000" "frame_000"] = Except.ok d ∧
      kitsLen d = 0 :=
  c9_silently_empty [MaskPath.mk "case_00000" "frame_000"] (by decide) (by decide)

/-- C4: for every model and every non-empty dataset, two evaluation passes of
`validate` — which builds a fresh glue/mrpc metric per call — return identical
final F1 values whatever metric state existed beforehand: scoring is a
deterministic function of the model and the dataset, with no randomness. -/
theorem c4_validate_deterministic {α : Type} (model : α → List ℚ)
    (dataset : List (GlueBatch α)) (hD : dataset ≠ [])
    (prior1 prior2 : GlueMetricState) :
    validate model dataset prior1 = validate model dataset prior2 := rfl

/-- C4, witness: a one-batch dataset scored once from a fresh metric state and
once from a dirtied one. -/
theorem c4_witness :
    validate (fun _ : Unit => [(0 : ℚ), 1]) [GlueBatch.mk () 1] GlueMetricState.load =
      validate (fun _ : Unit => [(0 : ℚ), 1]) [GlueBatch.mk () 1]
        (GlueMetricState.mk [((0 : ℤ), (0 : ℤ))]) :=
  c4_validate_deterministic _ _ (List.cons_ne_nil _ _) _ _

/-- C5: when statistics collection (configured in the notebook with
`stat_subset_size = 1000`) is given a `subset_size` greater than the dataset
length, it uses exactly the `len(dataset)` samples of the dataset — so it
cannot read past its end — does not raise, and emits only a warning-level
note. -/
theorem c5_subset_clamped {α : Type} (dataset : List α) (subset_size : ℕ)
    (hne : dataset ≠ []) (hgt : dataset.length < subset_size) :
    collect_statistics dataset subset_size =
      Except.ok { used := dataset, warned := true } := by
  unfold collect_statistics
  rw [if_neg (by simpa [List.length_eq_zero] using hne)]
  rw [List.take_of_length_le (le_of_lt hgt), decide_eq_true hgt]

/-- C5, witness: a three-sample dataset with the notebook subset size 1000. -/
theorem c5_witness :
    collect_statistics [0, 1, 2] 1000 =
      Except.ok { used := ([0, 1, 2] : List ℕ), warned := true } :=
  c5_subset_clamped [0, 1, 2] 1000 (by decide) (by decide)

/-- C6: submitting N requests with distinct user-data tags to the
asynchronous inference queue and calling `wait_all()` results in exactly N
callback invocations, each receiving its own originally-submitted tag exactly
once, with no tag duplicated or dropped, whatever order the completion steps
took. -/
theorem c6_callbacks_exactly_once {τ : Type} [DecidableEq τ]
    (tags finalLog : List τ) (hdist : tags.Nodup)
    (hrun : QueueRun (submitAll tags) finalLog) :
    finalLog.length = tags.length ∧
    (∀ t ∈ tags, finalLog.count t = 1) ∧
    (∀ t ∈ finalLog, t ∈ tags) := by
  have hperm : finalLog.Perm tags := by
    have h0 := qRun_perm hrun
    rw [submitAll_eq] at h0
    simpa using h0.symm
  refine ⟨hperm.length_eq, ?_, fun t ht => hperm.mem_iff.mp ht⟩
  intro t ht
  rw [hperm.count_eq]
  exact List.count_eq_one_of_mem hdist ht

/-- C6, witness: two requests with tags 0 and 1 completing in reverse order. -/
theorem c6_witness :
    ([1, 0] : List ℕ).length = ([0, 1] : List ℕ).length ∧
    (∀ t ∈ ([0, 1] : List ℕ), ([1, 0] : List ℕ).count t = 1) ∧
    (∀ t ∈ ([1, 0] : List ℕ), t ∈ ([0, 1] : List ℕ)) :=
  c6_callbacks_exactly_once [0, 1] [1, 0] (by decide)
    (by
      show Relation.ReflTransGen QStep (submitAll [0, 1]) ⟨[], [1, 0]⟩
      have s1 : QStep (⟨[0, 1], []⟩ : AsyncQueue ℕ) ⟨[0], [1]⟩ :=
        QStep.complete [0] [] 1 []
      have s2 : QStep (⟨[0], [1]⟩ : AsyncQueue ℕ) ⟨[], [1, 0]⟩ :=
        QStep.complete [] [] 0 [1]
      exact Relation.ReflTransGen.tail (Relation.ReflTransGen.single s1) s2)

/-- C7: in the benchmark trace, model compilation happens strictly before the
timer starts (it lies in the part of the trace the timer has not yet seen),
the events between timer start and timer stop are exactly `num_samples`
inference calls on the single prepared input, the measured `time_ir` equals
`num_samples` times the per-call duration, and the reported throughput is
`num_samples / time_ir`. -/
theorem c7_benchmark_timing (n : ℕ) (d : BenchEvent → ℚ) :
    (benchTrace n).takeWhile (fun e => !(e.isStart)) =
      [BenchEvent.compileModel, BenchEvent.otherWork] ∧
    timedSection (benchTrace n) = List.replicate n (BenchEvent.inferCall 0) ∧
    time_ir d n = (n : ℚ) * d (BenchEvent.inferCall 0) ∧
    reportedSPS d n = (n : ℚ) / ((n : ℚ) * d (BenchEvent.inferCall 0)) := by
  have hsec : timedSection (benchTrace n) = List.replicate n (BenchEvent.inferCall 0) := by
    have ha : (fun e => !(BenchEvent.isStop e)) (BenchEvent.inferCall 0) = true := rfl
    unfold timedSection benchTrace
    simp only [List.cons_append, List.nil_append, List.dropWhile_cons,
      BenchEvent.isStart, Bool.not_false, Bool.not_true, Bool.false_eq_true,
      if_true, if_false, List.drop_succ_cons, List.drop_zero]
    rw [takeWhile_replicate_append (fun e => !(BenchEvent.isStop e))
      (BenchEvent.inferCall 0) ha]
    simp [List.takeWhile_cons, BenchEvent.isStop]
  have htime : time_ir d n = (n : ℚ) * d (BenchEvent.inferCall 0) := by
    unfold time_ir
    rw [hsec, List.map_replicate, List.sum_replicate, nsmul_eq_mul]
  refine ⟨?_, hsec, htime, ?_⟩
  · unfold benchTrace
    simp [List.takeWhile_cons, BenchEvent.isStart]
  · unfold reportedSPS
    rw [htime]
